import Mathlib

/-!
Shallow embedding of the rollup wasm plugin (`src/packages/wasm/src/index.ts`)
together with its public options type (`src/packages/wasm/types`).

Modelling conventions:
* a byte is a `Nat` (meaningful values are `< 256`, stated as a hypothesis
  where a claim needs it); a file's contents is a `List Nat`;
* JavaScript strings are Lean `String`s; `buffer.toString('binary')` maps each
  byte to the character with that code (latin1), `Buffer.from(s, 'binary')`
  maps each character back to its code modulo 256;
* the mutable `copies` object is an association list built from the entries the
  `load` hook inserts; each asset owns one key, so insertion order is irrelevant;
* promises are modelled by their first settlement: a promise value is either
  resolved with a value or rejected with an error.
-/

namespace RollupWasm

/-! ### Binary-safe text encoding (`buffer.toString('binary')` and back) -/

/-- `buffer.toString('binary')`: each byte becomes the character with that
character code (latin1 decoding). -/
def bufferToBinaryString (bytes : List Nat) : String :=
  String.mk (bytes.map (fun b => Char.ofNat b))

/-- `Buffer.from(code, 'binary')`: each character contributes its character
code, reduced modulo 256 (latin1 encoding keeps the low byte). -/
def bufferFromBinaryString (s : String) : List Nat :=
  s.toList.map (fun c => c.toNat % 256)

/-! ### Base64 (`Buffer.prototype.toString('base64')`, `Buffer.from(-, 'base64')`, `atob`) -/

def base64Chars : List Char :=
  "ABCDEFGHIJKLMNOPQRSTUVWXYZabcdefghijklmnopqrstuvwxyz0123456789+/".toList

def base64Char (n : Nat) : Char := base64Chars.getD n 'A'

/-- RFC 4648 base64 of a byte list, with `=` padding, as emitted by
`Buffer.prototype.toString('base64')`. -/
def base64EncodeList : List Nat → List Char
  | b0 :: b1 :: b2 :: rest =>
      base64Char (b0 / 4) :: base64Char (b0 % 4 * 16 + b1 / 16) ::
      base64Char (b1 % 16 * 4 + b2 / 64) :: base64Char (b2 % 64) ::
      base64EncodeList rest
  | [b0, b1] =>
      [base64Char (b0 / 4), base64Char (b0 % 4 * 16 + b1 / 16),
       base64Char (b1 % 16 * 4), '=']
  | [b0] =>
      [base64Char (b0 / 4), base64Char (b0 % 4 * 16), '=', '=']
  | [] => []

def base64String (bytes : List Nat) : String := String.mk (base64EncodeList bytes)

def base64Index (c : Char) : Option Nat :=
  let i := base64Chars.indexOf c
  if i < 64 then some i else none

def base64DecodeSextets : List Nat → List Nat
  | s0 :: s1 :: s2 :: s3 :: rest =>
      (s0 * 4 + s1 / 16) :: (s1 % 16 * 16 + s2 / 4) :: (s2 % 4 * 64 + s3) ::
      base64DecodeSextets rest
  | [s0, s1, s2] => [s0 * 4 + s1 / 16, s1 % 16 * 16 + s2 / 4]
  | [s0, s1] => [s0 * 4 + s1 / 16]
  | _ => []

/-- Base64 decoding of a canonical base64 string; `=` and characters outside
the alphabet carry no payload bits.  This is the byte list produced both by
`Buffer.from(src, 'base64')` (node) and by the `atob` + `charCodeAt` loop
(browser) in the runtime bootstrap. -/
def base64Decode (s : String) : List Nat :=
  base64DecodeSextets (s.toList.filterMap base64Index)

/-! ### SHA-1 (`createHash('sha1').update(buffer).digest('hex')`) -/

def rotl32 (x n : Nat) : Nat :=
  ((x <<< n) % 4294967296) ||| ((x % 4294967296) >>> (32 - n))

/-- SHA-1 message padding: append `0x80`, zeros to 56 mod 64, and the
big-endian 64-bit bit length. -/
def sha1Pad (msg : List Nat) : List Nat :=
  let bitLen := msg.length * 8
  msg ++ 128 :: List.replicate ((119 - msg.length % 64) % 64) 0 ++
    [56, 48, 40, 32, 24, 16, 8, 0].map (fun s => bitLen >>> s % 256)

/-- Big-endian 32-bit words of a byte list. -/
def bytesToWords : List Nat → List Nat
  | a :: b :: c :: d :: rest => (((a * 256 + b) * 256 + c) * 256 + d) :: bytesToWords rest
  | _ => []

/-- Extend the 16 chunk words to the 80 round words. -/
def sha1Extend (w16 : Array Nat) : Array Nat :=
  (List.range 64).foldl
    (fun w i =>
      let j := i + 16
      w.push (rotl32
        ((w.getD (j - 3) 0 ^^^ w.getD (j - 8) 0) ^^^
         (w.getD (j - 14) 0 ^^^ w.getD (j - 16) 0)) 1))
    w16

abbrev Sha1State := Nat × Nat × Nat × Nat × Nat

def sha1Round (w : Array Nat) (st : Sha1State) (i : Nat) : Sha1State :=
  match st with
  | (a, b, c, d, e) =>
    let fk : Nat × Nat :=
      if i < 20 then (b &&& c ||| (b ^^^ 4294967295) &&& d, 1518500249)
      else if i < 40 then (b ^^^ c ^^^ d, 1859775393)
      else if i < 60 then (b &&& c ||| b &&& d ||| c &&& d, 2400959708)
      else (b ^^^ c ^^^ d, 3395469782)
    let temp := (rotl32 a 5 + fk.1 + e + fk.2 + w.getD i 0) % 4294967296
    (temp, a, rotl32 b 30, c, d)

def sha1Compress (st : Sha1State) (chunk : List Nat) : Sha1State :=
  let w := sha1Extend (bytesToWords chunk).toArray
  match st, (List.range 80).foldl (sha1Round w) st with
  | (h0, h1, h2, h3, h4), (a, b, c, d, e) =>
    ((h0 + a) % 4294967296, (h1 + b) % 4294967296, (h2 + c) % 4294967296,
     (h3 + d) % 4294967296, (h4 + e) % 4294967296)

/-- Split a byte list into 64-byte chunks; the fuel (initially the list
length, which bounds the number of chunks) makes the recursion structural. -/
def chunks64Go : Nat → List Nat → List (List Nat)
  | _, [] => []
  | 0, _ => []
  | fuel + 1, l => l.take 64 :: chunks64Go fuel (l.drop 64)

def chunks64 (l : List Nat) : List (List Nat) := chunks64Go l.length l

def hexDigit (n : Nat) : Char := "0123456789abcdef".toList.getD n '0'

def wordHex8 (w : Nat) : List Char :=
  (List.range 8).map (fun i => hexDigit (w >>> ((7 - i) * 4) % 16))

/-- `createHash('sha1').update(buffer).digest('hex')`. -/
def sha1Hex (msg : List Nat) : String :=
  match (chunks64 (sha1Pad msg)).foldl sha1Compress
      (1732584193, 4023233417, 2562383102, 271733878, 3285377520) with
  | (h0, h1, h2, h3, h4) =>
    String.mk (wordHex8 h0 ++ wordHex8 h1 ++ wordHex8 h2 ++ wordHex8 h3 ++ wordHex8 h4)

/-- `.digest('hex').substr(0, 16)`: the first 16 hex characters of the SHA-1. -/
def hash16 (msg : List Nat) : String := (sha1Hex msg).take 16

/-! ### Options and configuration

`RollupWasmOptions` is the public options type of `types/index.d.ts`: it
declares `sync`, `limit` and `publicPath`.  The implementation, however,
destructures `const { sync = [], maxFileSize = 14 * 1024, publicPath = '' } =
options`, i.e. it reads a dynamic `maxFileSize` property (absent from the
public type) and never reads `limit`.  The model therefore carries both
fields: `limit` as typed (and unread), `maxFileSize` as the untyped property
the destructuring actually consults. -/

structure RollupWasmOptions where
  sync : Option (List String) := none
  limit : Option Nat := none
  publicPath : Option String := none
  maxFileSize : Option Nat := none
deriving Repr

/-- The per-build configuration captured by the `wasm(options)` closure:
`syncFiles = sync.map(path.resolve)`, `maxFileSize` (default `14 * 1024`),
`publicPath` (default `''`). -/
structure Config where
  syncFiles : List String
  maxFileSize : Nat
  publicPath : String
deriving Repr

/-- The destructuring at the top of `wasm(options)`.  `resolve` stands for
`path.resolve` (resolution against the current working directory), which the
embedding keeps abstract. -/
def wasmConfig (resolve : String → String) (options : RollupWasmOptions) : Config :=
  { syncFiles := (options.sync.getD []).map resolve
    maxFileSize := options.maxFileSize.getD (14 * 1024)
    publicPath := options.publicPath.getD "" }

/-! ### The `load` hook -/

/-- `/\.wasm$/.test(id)`: the id's character sequence ends with `.wasm`. -/
def matchesWasm (id : String) : Bool := ".wasm".toList.isSuffixOf id.toList

/-- Result of the `load` hook on one asset: the value the returned promise
resolves to (`none` when the hook returned `null` for an unmatched id), and
the `copies[id] = ...` insertion it performed, if any. -/
structure LoadResult where
  code : Option String
  copyEntry : Option (String × String)
deriving Repr, DecidableEq

/-- The `load(id)` hook, after `fs.stat` and `fs.readFile` succeeded with
`size` and `buffer`: when the id matches `\.wasm$`, it inserts
`copies[id] = publicPath + hash + ".wasm"` iff
`(maxFileSize && size > maxFileSize) || maxFileSize === 0` and
`syncFiles.indexOf(id) === -1`, and resolves with `buffer.toString('binary')`. -/
def load (cfg : Config) (id : String) (size : Nat) (buffer : List Nat) : LoadResult :=
  if matchesWasm id then
    { code := some (bufferToBinaryString buffer)
      copyEntry :=
        if (cfg.maxFileSize ≠ 0 ∧ size > cfg.maxFileSize) ∨ cfg.maxFileSize = 0 then
          if cfg.syncFiles.contains id then none
          else some (id, cfg.publicPath ++ hash16 buffer ++ ".wasm")
        else none }
  else { code := none, copyEntry := none }

/-- The `copies` object produced by running `load` over a list of assets
`(id, size, buffer)`; each asset contributes at most the one keyed insert its
`load` call performs. -/
def loadCopies (cfg : Config) (assets : List (String × Nat × List Nat)) :
    List (String × String) :=
  assets.filterMap (fun a => (load cfg a.1 a.2.1 a.2.2).copyEntry)

/-! ### The `transform` hook -/

/-- JavaScript truthiness of a possibly-absent string (only the empty string
is falsy). -/
def truthyStr : Option String → Bool
  | none => false
  | some s => s != ""

/-- `copies[id]` as a lookup in the association list. -/
def lookupCopies (copies : List (String × String)) (id : String) : Option String :=
  (copies.find? (fun p => p.1 == id)).map (fun p => p.2)

/-- `const filepath = copies[id] ? `...` : null`: the quoted destination
literal when `copies[id]` is truthy, else `null`. -/
def copiesFilepath (copies : List (String × String)) (id : String) : Option String :=
  match lookupCopies copies id with
  | some d => if d != "" then some ("\x27" ++ d ++ "\x27") else none
  | none => none

/-- The template literal
`export default function(imports){return _loadWasmModule(${+isSync}, ${filepath}, ${src}, imports)}`;
an absent `filepath`/`src` interpolates as `null`. -/
def emittedModule (isSync : Bool) (filepath : Option String) (src : Option String) : String :=
  "export default function(imports)\x7breturn _loadWasmModule(" ++
    (if isSync then "1" else "0") ++ ", " ++ filepath.getD "null" ++ ", " ++
    src.getD "null" ++ ", imports)\x7d"

/-- Outcome of the `transform` hook: `null` (hook declined), a thrown
`this.error(...)`, or returned module code. -/
inductive TransformResult where
  | skipped : TransformResult
  | errored (msg : String) : TransformResult
  | code (js : String) : TransformResult
deriving Repr, DecidableEq

/-- The `transform(code, id)` hook.  Guard: `if (code && /\.wasm$/.test(id))`.
Inside: `isSync = syncFiles.indexOf(id) !== -1`; when `copies[id]` is falsy the
body is inlined as a base64 literal of `Buffer.from(code, 'binary')`; when it
is truthy a sync id is a hard `this.error`, otherwise the destination literal
is emitted with a null payload. -/
def transform (copies : List (String × String)) (syncFiles : List String)
    (code : Option String) (id : String) : TransformResult :=
  if truthyStr code && matchesWasm id then
    let isSync := syncFiles.contains id
    match copiesFilepath copies id with
    | none =>
        .code (emittedModule isSync none
          (some ("\x27" ++ base64String (bufferFromBinaryString (code.getD "")) ++ "\x27")))
    | some fp =>
        if isSync then .errored "non-inlined files can not be \x60sync\x60."
        else .code (emittedModule isSync (some fp) none)
  else .skipped

/-! ### The runtime bootstrap (`banner`: `_loadWasmModule`)

The banner string defines `_loadWasmModule(sync, filepath, src, imports)` and
its inner helper `_instantiateOrCompile(source, imports, stream)`.  The
WebAssembly API calls are kept symbolic: an `IocResult` records which API
function was selected and with which arguments.  The environment probe
`typeof process !== 'undefined' && process.versions != null &&
process.versions.node != null` is the `isNode` field; `fs.readFile` on the
path resolved against `__dirname` is the `readFile` field (resolution folded
into the environment). -/

/-- An opaque caller-supplied imports object (always truthy when present). -/
structure ImportObj where
  tag : Nat
deriving Repr, DecidableEq

/-- The first argument handed to the WebAssembly API: a byte buffer, or the
response stream of `fetch(filepath)`. -/
inductive WasmSource where
  | buffer (bytes : List Nat)
  | responseStream (url : String)
deriving Repr, DecidableEq

/-- The selected WebAssembly call: `instantiate`/`instantiateStreaming`
applied to `(source, imports)`, or `compile`/`compileStreaming` applied to
`source`; `streaming` records which of the pair was picked. -/
inductive IocResult where
  | instantiated (streaming : Bool) (source : WasmSource) (imports : ImportObj)
  | compiled (streaming : Bool) (source : WasmSource)
deriving Repr, DecidableEq

/-- `_instantiateOrCompile(source, imports, stream)`: `imports` truthy picks
the instantiate function of the pair, else the compile function. -/
def instantiateOrCompile (source : WasmSource) (imports : Option ImportObj)
    (stream : Bool) : IocResult :=
  match imports with
  | some imp => .instantiated stream source imp
  | none => .compiled stream source

/-- Whether an `IocResult` is a bound running instance (as opposed to a bare
compiled module). -/
def iocIsInstantiated : IocResult → Bool
  | .instantiated .. => true
  | .compiled .. => false

/-- What `_loadWasmModule` returns: a promise (by its first settlement —
in the node/filepath branch the stray `resolve` call after `reject(error)` is
a no-op, so a failed read settles the promise rejected), or a direct
synchronous value `new WebAssembly.Instance(new WebAssembly.Module(buf), imports)`
/ `new WebAssembly.Module(buf)`. -/
inductive LoadOutcome where
  | promiseResolved (r : IocResult)
  | promiseRejected (err : String)
  | syncInstance (moduleBytes : List Nat) (imports : ImportObj)
  | syncModule (moduleBytes : List Nat)
deriving Repr, DecidableEq

/-- Whether the returned value is a promise. -/
def isPromise : LoadOutcome → Bool
  | .promiseResolved _ => true
  | .promiseRejected _ => true
  | _ => false

/-- The execution environment of the bootstrap. -/
structure Env where
  isNode : Bool
  readFile : String → Except String (List Nat)

/-- `_loadWasmModule(sync, filepath, src, imports)`.  Branches:
`filepath && isNode` reads the file and instantiates-or-compiles the buffer,
non-streaming; `filepath` alone streams `fetch(filepath)`; otherwise `src` is
base64-decoded (node `Buffer.from` / browser `atob` loop decode identically)
and either handled synchronously (`new WebAssembly.Module`, plus
`new WebAssembly.Instance` when imports are given) or instantiated-or-compiled
non-streaming. -/
def loadWasmModule (env : Env) (sync : Bool) (filepath : Option String)
    (src : Option String) (imports : Option ImportObj) : LoadOutcome :=
  if truthyStr filepath && env.isNode then
    match env.readFile (filepath.getD "") with
    | .error e => .promiseRejected e
    | .ok buffer => .promiseResolved (instantiateOrCompile (.buffer buffer) imports false)
  else if truthyStr filepath then
    .promiseResolved (instantiateOrCompile (.responseStream (filepath.getD "")) imports true)
  else
    let buf := base64Decode (src.getD "")
    if sync then
      match imports with
      | some imp => .syncInstance buf imp
      | none => .syncModule buf
    else
      .promiseResolved (instantiateOrCompile (.buffer buf) imports false)

/-! ### Helper lemmas -/

theorem char_toNat_ofNat_lt (b : Nat) (h : b < 256) : (Char.ofNat b).toNat = b := by
  have hv : b.isValidChar := Or.inl (by omega)
  rw [Char.ofNat, dif_pos hv]
  simp [Char.ofNatAux, Char.toNat, UInt32.toNat, BitVec.toNat_ofNatLt]

theorem binary_roundtrip_aux (P : List Nat) (h : ∀ b ∈ P, b < 256) :
    bufferFromBinaryString (bufferToBinaryString P) = P := by
  induction P with
  | nil => rfl
  | cons b rest ih =>
      have hb : b < 256 := h b (by simp)
      have hrest := ih (fun x hx => h x (by simp [hx]))
      unfold bufferFromBinaryString bufferToBinaryString at hrest ⊢
      simp only [List.map_cons, String.toList] at hrest ⊢
      simp [char_toNat_ofNat_lt b hb, Nat.mod_eq_of_lt hb, hrest]

theorem bufferToBinaryString_ne_empty (buffer : List Nat) (h : buffer ≠ []) :
    bufferToBinaryString buffer ≠ "" := by
  unfold bufferToBinaryString
  intro hcontra
  have hdata : (String.mk (buffer.map Char.ofNat)).data = ("" : String).data := by
    rw [hcontra]
  simp at hdata
  exact h hdata

theorem lookupCopies_mem (copies : List (String × String)) (id d : String)
    (h : lookupCopies copies id = some d) : (id, d) ∈ copies := by
  unfold lookupCopies at h
  cases hf : copies.find? (fun p => p.1 == id) with
  | none => simp [hf] at h
  | some p =>
      simp only [hf, Option.map_some] at h
      have hp : p.1 = id := by simpa using List.find?_some hf
      have hmem := List.mem_of_find?_eq_some hf
      have : (id, d) = p := by
        cases p
        simp_all
      rw [this]
      exact hmem

theorem loadCopies_key_not_sync (cfg : Config) (assets : List (String × Nat × List Nat))
    (k v : String) (h : (k, v) ∈ loadCopies cfg assets) :
    cfg.syncFiles.contains k = false := by
  rcases List.mem_filterMap.mp h with ⟨a, _, ha⟩
  unfold load at ha
  split at ha
  · simp only at ha
    split at ha
    · split at ha
      · simp at ha
      · rename_i hns
        simp only [Option.some.injEq, Prod.mk.injEq] at ha
        rw [← ha.1]
        simpa using hns
    · simp at ha
  · simp at ha

/-! ### Concrete test fixtures -/

/-- A build configuration whose sync set holds `/a.wasm` and whose inline
threshold is 10 bytes. -/
def cfgSyncTen : Config :=
  { syncFiles := ["/a.wasm"], maxFileSize := 10, publicPath := "" }

/-- The default configuration: no sync files, threshold `14 * 1024`, empty
public path. -/
def cfgDefault : Config :=
  { syncFiles := [], maxFileSize := 14336, publicPath := "" }

/-- An always-copy configuration: `maxFileSize = 0`, one sync file, a public
path prefix. -/
def cfgZero : Config :=
  { syncFiles := ["/s.wasm"], maxFileSize := 0, publicPath := "/assets/" }

/-! ### Claims -/

set_option maxRecDepth 100000 in
/-- Claim C1, counterexample: the claim asserts that a sync asset whose size
exceeds the nonzero threshold fails the build with the sync/non-inline
conflict error.  On the code, `load` skips the `copies` insertion for sync
ids (`syncFiles.indexOf(id) === -1` guards it), so `transform` finds no
destination and silently emits the inline module body instead of erroring:
for the sync asset `/a.wasm` of size 11 over threshold 10, the emitted code
is the inline export and the copy registry stays empty. -/
theorem claim1_counterexample :
    (load cfgSyncTen "/a.wasm" 11 (List.replicate 11 0)).copyEntry = none ∧
    transform (loadCopies cfgSyncTen [("/a.wasm", 11, List.replicate 11 0)])
        cfgSyncTen.syncFiles
        (load cfgSyncTen "/a.wasm" 11 (List.replicate 11 0)).code "/a.wasm" =
      .code "export default function(imports)\x7breturn _loadWasmModule(1, null, \x27AAAAAAAAAAAAAAA=\x27, imports)\x7d" := by
  exact ⟨by decide, by decide⟩

/-- Claim C1, amended: for every asset whose path is in the sync set and whose
size exceeds a nonzero `maxFileSize` threshold, the load phase does not
register the asset in the copy registry and the transform phase silently
inlines it, emitting the inline module body with the sync flag set; the
sync/non-inline conflict error is not raised. -/
theorem sync_oversize_inlined (cfg : Config) (id : String) (size : Nat)
    (buffer : List Nat) (hmatch : matchesWasm id = true)
    (hsync : cfg.syncFiles.contains id = true)
    (hsize : cfg.maxFileSize ≠ 0 ∧ size > cfg.maxFileSize)
    (hne : buffer ≠ []) :
    (load cfg id size buffer).copyEntry = none ∧
    transform (loadCopies cfg [(id, size, buffer)]) cfg.syncFiles
        (load cfg id size buffer).code id =
      .code (emittedModule true none
        (some ("\x27" ++
          base64String (bufferFromBinaryString (bufferToBinaryString buffer)) ++
          "\x27"))) := by
  have hmem : id ∈ cfg.syncFiles := by simpa using hsync
  have hcond : (cfg.maxFileSize ≠ 0 ∧ size > cfg.maxFileSize) ∨ cfg.maxFileSize = 0 :=
    Or.inl hsize
  have hcopy : (load cfg id size buffer).copyEntry = none := by
    simp [load, hmatch, hcond, hmem]
  have hcode : (load cfg id size buffer).code = some (bufferToBinaryString buffer) := by
    simp [load, hmatch]
  have hcopies : loadCopies cfg [(id, size, buffer)] = [] := by
    simp [loadCopies, hcopy]
  have htruthy : (truthyStr (some (bufferToBinaryString buffer)) && matchesWasm id) = true := by
    simp [truthyStr, hmatch, bufferToBinaryString_ne_empty buffer hne]
  refine ⟨hcopy, ?_⟩
  rw [hcode, hcopies]
  simp [transform, htruthy, copiesFilepath, lookupCopies, hmem]

/-- Claim C1, witness: the amended statement at the concrete sync asset
`/a.wasm` of size 11 against threshold 10. -/
theorem sync_oversize_inlined_witness :
    (load cfgSyncTen "/a.wasm" 11 [7]).copyEntry = none ∧
    transform (loadCopies cfgSyncTen [("/a.wasm", 11, [7])]) cfgSyncTen.syncFiles
        (load cfgSyncTen "/a.wasm" 11 [7]).code "/a.wasm" =
      .code (emittedModule true none
        (some ("\x27" ++
          base64String (bufferFromBinaryString (bufferToBinaryString [7])) ++
          "\x27"))) :=
  sync_oversize_inlined cfgSyncTen "/a.wasm" 11 [7] (by decide) (by decide)
    ⟨by decide, by decide⟩ (by decide)

/-- Claim C2: re-decoding the binary-safe text encoding reproduces the
original bytes exactly, and therefore the base64 literal emitted by the
transform for an inlined asset is the base64 of the source file's own bytes. -/
theorem binary_text_roundtrip (P : List Nat) (h : ∀ b ∈ P, b < 256) :
    bufferFromBinaryString (bufferToBinaryString P) = P ∧
    (∀ syncFiles id, matchesWasm id = true → P ≠ [] →
      transform [] syncFiles (some (bufferToBinaryString P)) id =
        .code (emittedModule (syncFiles.contains id) none
          (some ("\x27" ++ base64String P ++ "\x27")))) := by
  have hrt := binary_roundtrip_aux P h
  refine ⟨hrt, fun syncFiles id hmatch hne => ?_⟩
  have htruthy : (truthyStr (some (bufferToBinaryString P)) && matchesWasm id) = true := by
    simp [truthyStr, hmatch, bufferToBinaryString_ne_empty P hne]
  simp [transform, htruthy, copiesFilepath, lookupCopies, hrt]

/-- Claim C2, witness: the round trip and the emitted base64 literal at the
concrete payload `[0, 255, 77]`. -/
theorem binary_text_roundtrip_witness :
    bufferFromBinaryString (bufferToBinaryString [0, 255, 77]) = [0, 255, 77] ∧
    transform [] [] (some (bufferToBinaryString [0, 255, 77])) "/w.wasm" =
      .code (emittedModule false none
        (some ("\x27" ++ base64String [0, 255, 77] ++ "\x27"))) := by
  have h := binary_text_roundtrip [0, 255, 77] (by decide)
  exact ⟨h.1, h.2 [] "/w.wasm" (by decide) (by decide)⟩

/-- Claim C3, counterexample: the claim asserts every matched `.wasm` asset
gets one of the two module bodies, but the transform guard
`if (code && ...)` makes the hook return `null` for an asset whose loaded
text body is empty: the zero-byte asset `/e.wasm` is matched yet no module
body is emitted. -/
theorem claim3_counterexample :
    matchesWasm "/e.wasm" = true ∧
    transform (loadCopies cfgDefault [("/e.wasm", 0, [])]) cfgDefault.syncFiles
        (load cfgDefault "/e.wasm" 0 []).code "/e.wasm" = .skipped := by
  exact ⟨by decide, rfl⟩

/-- Claim C3, amended: for every matched `.wasm` asset whose text body is
nonempty, the transform emits exactly one of the two module bodies: a truthy
copy-registry destination on a non-sync asset yields the copy body
`(0, destination_literal, null, imports)`; an absent destination yields the
inline body `(isSync, null, base64_literal, imports)` with the base64 literal
derived from the re-decoded text body.  (Destinations written by `load` are
never the empty string, so the truthiness condition on the stored destination
is vacuous for registry states this plugin itself produces.) -/
theorem transform_decision_table (copies : List (String × String))
    (syncFiles : List String) (c : String) (id : String)
    (hmatch : matchesWasm id = true) (hc : c ≠ "") :
    (∀ d, lookupCopies copies id = some d → d ≠ "" →
      syncFiles.contains id = false →
      transform copies syncFiles (some c) id =
        .code (emittedModule false (some ("\x27" ++ d ++ "\x27")) none)) ∧
    (lookupCopies copies id = none →
      transform copies syncFiles (some c) id =
        .code (emittedModule (syncFiles.contains id) none
          (some ("\x27" ++ base64String (bufferFromBinaryString c) ++ "\x27")))) := by
  have htruthy : (truthyStr (some c) && matchesWasm id) = true := by
    simp [truthyStr, hmatch, hc]
  constructor
  · intro d hd hdne hnsync
    have hnmem : id ∉ syncFiles := by simpa using hnsync
    have hcf : copiesFilepath copies id = some ("\x27" ++ d ++ "\x27") := by
      simp [copiesFilepath, hd, hdne]
    simp [transform, htruthy, hcf, hnmem]
  · intro hd
    have hcf : copiesFilepath copies id = none := by
      simp [copiesFilepath, hd]
    simp [transform, htruthy, hcf]

/-- Claim C3, witness: both rows of the decision table at concrete inputs: a
registered non-sync asset gets the copy body, an unregistered asset gets the
inline body. -/
theorem transform_decision_table_witness :
    transform [("/b.wasm", "abc.wasm")] [] (some "x") "/b.wasm" =
      .code (emittedModule false (some ("\x27" ++ "abc.wasm" ++ "\x27")) none) ∧
    transform [] [] (some "x") "/b.wasm" =
      .code (emittedModule false none
        (some ("\x27" ++ base64String (bufferFromBinaryString "x") ++ "\x27"))) := by
  refine ⟨(transform_decision_table [("/b.wasm", "abc.wasm")] [] "x" "/b.wasm"
      (by decide) (by decide)).1 "abc.wasm" (by decide) (by decide) (by decide), ?_⟩
  have h2 := (transform_decision_table [] [] "x" "/b.wasm" (by decide) (by decide)).2
    (by decide)
  simpa using h2

/-- Claim C4: with a nonzero threshold `N` and a non-sync matched asset, the
comparison is strict: size equal to `N` leaves the asset unregistered
(inlined), size strictly greater registers `publicPath + hash + ".wasm"`. -/
theorem maxFileSize_boundary (cfg : Config) (id : String) (size : Nat)
    (buffer : List Nat) (hN : cfg.maxFileSize ≠ 0)
    (hsync : cfg.syncFiles.contains id = false)
    (hmatch : matchesWasm id = true) :
    (size = cfg.maxFileSize → (load cfg id size buffer).copyEntry = none) ∧
    (size > cfg.maxFileSize →
      (load cfg id size buffer).copyEntry =
        some (id, cfg.publicPath ++ hash16 buffer ++ ".wasm")) := by
  constructor
  · intro heq
    have hcond : ¬((cfg.maxFileSize ≠ 0 ∧ size > cfg.maxFileSize) ∨ cfg.maxFileSize = 0) := by
      omega
    simp [load, hmatch, hcond]
  · intro hgt
    have hnmem : id ∉ cfg.syncFiles := by simpa using hsync
    have hcond : (cfg.maxFileSize ≠ 0 ∧ size > cfg.maxFileSize) ∨ cfg.maxFileSize = 0 :=
      Or.inl ⟨hN, hgt⟩
    simp [load, hmatch, hcond, hnmem]

set_option maxRecDepth 100000 in
/-- Claim C4, witness: the boundary at the default threshold 14336: a
14336-byte asset is not registered, a 14337-byte asset is registered under
its 16-hex-character SHA-1 name. -/
theorem maxFileSize_boundary_witness :
    (load cfgDefault "/b.wasm" 14336 [1, 2, 3]).copyEntry = none ∧
    (load cfgDefault "/b.wasm" 14337 [1, 2, 3]).copyEntry =
      some ("/b.wasm", "7037807198c22a7d.wasm") := by
  have h1 := maxFileSize_boundary cfgDefault "/b.wasm" 14336 [1, 2, 3]
    (by decide) (by decide) (by decide)
  have h2 := maxFileSize_boundary cfgDefault "/b.wasm" 14337 [1, 2, 3]
    (by decide) (by decide) (by decide)
  refine ⟨h1.1 rfl, ?_⟩
  rw [h2.2 (by decide)]
  rfl

/-- Claim C5: with `maxFileSize = 0` every matched non-sync asset is
registered for copying regardless of its size, and a sync-declared asset is
never registered for copying under any configuration. -/
theorem maxFileSize_zero_always_copies (cfg : Config) (id : String) (size : Nat)
    (buffer : List Nat) (hmatch : matchesWasm id = true) :
    (cfg.maxFileSize = 0 → cfg.syncFiles.contains id = false →
      (load cfg id size buffer).copyEntry =
        some (id, cfg.publicPath ++ hash16 buffer ++ ".wasm")) ∧
    (cfg.syncFiles.contains id = true →
      (load cfg id size buffer).copyEntry = none) := by
  constructor
  · intro h0 hsync
    have hnmem : id ∉ cfg.syncFiles := by simpa using hsync
    have hcond : (cfg.maxFileSize ≠ 0 ∧ size > cfg.maxFileSize) ∨ cfg.maxFileSize = 0 :=
      Or.inr h0
    simp [load, hmatch, hcond, hnmem]
  · intro hsync
    have hmem : id ∈ cfg.syncFiles := by simpa using hsync
    by_cases hcond : (cfg.maxFileSize ≠ 0 ∧ size > cfg.maxFileSize) ∨ cfg.maxFileSize = 0
    · simp [load, hmatch, hcond, hmem]
    · simp [load, hmatch, hcond]

set_option maxRecDepth 100000 in
/-- Claim C5, witness: under `cfgZero` a tiny 3-byte non-sync asset is
registered (with the public path prefix) and the sync asset `/s.wasm` is not,
despite the always-copy threshold. -/
theorem maxFileSize_zero_always_copies_witness :
    (load cfgZero "/b.wasm" 3 [1, 2, 3]).copyEntry =
      some ("/b.wasm", "/assets/7037807198c22a7d.wasm") ∧
    (load cfgZero "/s.wasm" 3 [1, 2, 3]).copyEntry = none := by
  have h1 := maxFileSize_zero_always_copies cfgZero "/b.wasm" 3 [1, 2, 3] (by decide)
  have h2 := maxFileSize_zero_always_copies cfgZero "/s.wasm" 3 [1, 2, 3] (by decide)
  refine ⟨?_, h2.2 (by decide)⟩
  rw [h1.1 rfl (by decide)]
  rfl

/-- Claim C6: the instantiate-or-compile choice depends only on whether
imports are supplied (first conjunct: `_instantiateOrCompile` yields a bound
instance exactly when `imports` is present, for any source and stream flag),
and each of the four top-level loading cases — filepath on node (read
succeeded), filepath via fetch, and the non-sync inline path in both node and
browser environments — returns the result of that same helper applied to its
source. -/
theorem instantiate_choice_uniform (rf : String → Except String (List Nat))
    (buf : List Nat) (fp : String) (src : Option String)
    (imports : Option ImportObj) (sync : Bool) (hfp : fp ≠ "") :
    (∀ source stream,
      iocIsInstantiated (instantiateOrCompile source imports stream) = imports.isSome) ∧
    loadWasmModule ⟨true, fun _ => .ok buf⟩ sync (some fp) src imports =
      .promiseResolved (instantiateOrCompile (.buffer buf) imports false) ∧
    loadWasmModule ⟨false, rf⟩ sync (some fp) src imports =
      .promiseResolved (instantiateOrCompile (.responseStream fp) imports true) ∧
    loadWasmModule ⟨true, rf⟩ false none src imports =
      .promiseResolved
        (instantiateOrCompile (.buffer (base64Decode (src.getD ""))) imports false) ∧
    loadWasmModule ⟨false, rf⟩ false none src imports =
      .promiseResolved
        (instantiateOrCompile (.buffer (base64Decode (src.getD ""))) imports false) := by
  refine ⟨fun source stream => ?_, ?_, ?_, rfl, rfl⟩
  · cases imports <;> rfl
  · simp [loadWasmModule, truthyStr, hfp]
  · simp [loadWasmModule, truthyStr, hfp]

/-- Claim C6, witness: the uniform rule at a concrete environment: with
imports supplied the buffered call instantiates, and the node filepath case
returns the helper's result. -/
theorem instantiate_choice_uniform_witness :
    iocIsInstantiated (instantiateOrCompile (.buffer [0]) (some ⟨0⟩) false) =
      (some (⟨0⟩ : ImportObj)).isSome ∧
    loadWasmModule ⟨true, fun _ => .ok [0]⟩ true (some "f.wasm") none (some ⟨0⟩) =
      .promiseResolved (instantiateOrCompile (.buffer [0]) (some ⟨0⟩) false) := by
  have h := instantiate_choice_uniform (fun _ => .error "e") [0] "f.wasm" none
    (some ⟨0⟩) true (by decide)
  exact ⟨h.1 (.buffer [0]) false, h.2.1⟩

/-- Claim C7: with no filepath and `sync` true, the bootstrap returns a
direct (non-promise) value: an instance bound to the imports when they are
supplied, else the bare module built from the base64-decoded payload; with
`sync` false it instead returns a promise carrying the non-streaming
instantiate-or-compile of that buffer. -/
theorem inline_sync_direct (env : Env) (src : Option String)
    (imports : Option ImportObj) :
    loadWasmModule env true none src imports =
      (match imports with
       | some imp => LoadOutcome.syncInstance (base64Decode (src.getD "")) imp
       | none => LoadOutcome.syncModule (base64Decode (src.getD ""))) ∧
    isPromise (loadWasmModule env true none src imports) = false ∧
    loadWasmModule env false none src imports =
      .promiseResolved
        (instantiateOrCompile (.buffer (base64Decode (src.getD ""))) imports false) := by
  refine ⟨by cases imports <;> rfl, by cases imports <;> rfl, rfl⟩

/-- Claim C8: in the node case with a filepath, the returned promise rejects
with the read error when `fs.readFile` fails (the stray `resolve` call after
`reject` cannot re-settle the promise), and resolves to the non-streaming
instantiate-or-compile of the read buffer when the read succeeds. -/
theorem node_filepath_promise (env : Env) (fp : String) (src : Option String)
    (imports : Option ImportObj) (sync : Bool) (hnode : env.isNode = true)
    (hfp : fp ≠ "") :
    (∀ e, env.readFile fp = .error e →
      loadWasmModule env sync (some fp) src imports = .promiseRejected e) ∧
    (∀ buf, env.readFile fp = .ok buf →
      loadWasmModule env sync (some fp) src imports =
        .promiseResolved (instantiateOrCompile (.buffer buf) imports false)) := by
  constructor
  · intro e he
    simp [loadWasmModule, truthyStr, hfp, hnode, he]
  · intro buf hb
    simp [loadWasmModule, truthyStr, hfp, hnode, hb]

/-- Claim C8, witness: a failing read rejects with the error, a succeeding
read resolves with the buffered instantiate-or-compile result. -/
theorem node_filepath_promise_witness :
    loadWasmModule ⟨true, fun _ => .error "ENOENT"⟩ false (some "f.wasm") none none =
      .promiseRejected "ENOENT" ∧
    loadWasmModule ⟨true, fun _ => .ok [0, 97]⟩ false (some "f.wasm") none none =
      .promiseResolved (instantiateOrCompile (.buffer [0, 97]) none false) := by
  exact ⟨(node_filepath_promise ⟨true, fun _ => .error "ENOENT"⟩ "f.wasm" none none
      false rfl (by decide)).1 "ENOENT" rfl,
    (node_filepath_promise ⟨true, fun _ => .ok [0, 97]⟩ "f.wasm" none none
      false rfl (by decide)).2 [0, 97] rfl⟩

/-- Claim C9: the size threshold is read only from the (untyped) option field
`maxFileSize`, defaulting to `14 * 1024 = 14336`; an options object supplying
only the publicly typed `limit` field yields the same configuration — and
hence the same classification of every asset — as empty options, with the
default threshold 14336. -/
theorem limit_option_ignored (resolve : String → String) (n : Nat) (id : String)
    (size : Nat) (buffer : List Nat) :
    (wasmConfig resolve { limit := some n }).maxFileSize = 14336 ∧
    load (wasmConfig resolve { limit := some n }) id size buffer =
      load (wasmConfig resolve {}) id size buffer := by
  exact ⟨rfl, rfl⟩

/-- Claim C10: for a copy registry produced by this plugin's own load phase
over any asset list, the transform's sync-conflict error branch is
unreachable: `load` inserts an entry only for ids outside the sync set, and
`transform` tests sync membership against the same set, so no input makes
`transform` return the error outcome. -/
theorem sync_error_unreachable (cfg : Config) (assets : List (String × Nat × List Nat))
    (code : Option String) (id : String) (msg : String) :
    transform (loadCopies cfg assets) cfg.syncFiles code id ≠ .errored msg := by
  unfold transform
  split
  · cases hcf : copiesFilepath (loadCopies cfg assets) id with
    | none => simp
    | some fp =>
        have hlk : ∃ d, lookupCopies (loadCopies cfg assets) id = some d := by
          unfold copiesFilepath at hcf
          cases hl : lookupCopies (loadCopies cfg assets) id with
          | none => simp [hl] at hcf
          | some d => exact ⟨d, rfl⟩
        rcases hlk with ⟨d, hd⟩
        have hmem := lookupCopies_mem (loadCopies cfg assets) id d hd
        have hns := loadCopies_key_not_sync cfg assets id d hmem
        have hnmem : id ∉ cfg.syncFiles := by simpa using hns
        simp [hcf, hnmem]
  · simp

end RollupWasm
